import Mathlib

/-
Verification of the payroll simulation program (PayRegister.py).

The program generates a synthetic payroll table, derives monetary fields
from random draws, recomputes net pay, and compares wall-clock timing of a
CPU (NumPy/pandas) and a GPU (CuPy/cuDF) backend.

Shallow embedding conventions:
  * Monetary values are exact rationals (the source uses IEEE doubles; the
    spec states that exact tie/rounding bit-patterns are not load-bearing,
    so the arithmetic is embedded exactly and rounding to 2 decimals is
    NumPy's round-half-to-even).
  * The NumPy global PRNG is embedded abstractly: a `Dists` record carries
    the raw bit stream produced from a seed (`bits seed position`) and the
    distribution transformations (`choiceIx`, `randintV`, `uniformV`).
    `Dists.Valid` records the documented supports: `randint(lo, hi)`
    draws integers in `[lo, hi)` and `uniform(lo, hi)` draws in `[lo, hi)`.
  * `np.random.seed 42` replaces the global RNG state, discarding the
    previous state; this is `np_random_seed`.
  * Each column draw in the source consumes `n_rows` consecutive stream
    positions, and columns are drawn in the source's call order.
-/

namespace PayRegister

/-- Decimal digits of a natural number, little-endian, with structural fuel
(so that the kernel can evaluate it); `decDigits 0 = []`. -/
def decDigitsAux : Nat → Nat → List Nat
  | 0, _ => []
  | _ + 1, 0 => []
  | fuel + 1, n + 1 => (n + 1) % 10 :: decDigitsAux fuel ((n + 1) / 10)

/-- Decimal digits of a natural number, little-endian. -/
def decDigits (n : Nat) : List Nat :=
  decDigitsAux n n

/-- The character for a decimal digit. -/
def digitChar (d : Nat) : Char :=
  Char.ofNat (48 + d)

/-- The decimal digit denoted by a character. -/
def charDigit (c : Char) : Nat :=
  c.toNat - 48

/-- `decRepr n` is Python's `str(n)` for `n ≥ 1`: the decimal representation
with no leading zeros. -/
def decRepr (n : Nat) : String :=
  String.mk (((decDigits n).map digitChar).reverse)

/-- Zero-pad a string on the left to (minimum) width `w`:
Python's `f"{i:0{w}d}"` applied to the decimal representation. -/
def padLeft (w : Nat) (s : String) : String :=
  String.mk (List.replicate (w - s.length) '0' ++ s.data)

/-- Read a decimal string back to a natural number. -/
def parseNat (s : String) : Nat :=
  Nat.ofDigits 10 ((s.data.map charDigit).reverse)

/-- `id_width = max(3, len(str(n_rows)))` (PayRegister.py line 37). -/
def idWidth (nRows : Nat) : Nat :=
  max 3 (decDigits nRows).length

/-- First-name pool (PayRegister.py line 30). -/
def firstNames : List String :=
  ["John", "Jane", "Alex", "Emily", "Michael", "Sarah", "David", "Laura"]

/-- Last-name pool (PayRegister.py line 31). -/
def lastNames : List String :=
  ["Doe", "Smith", "Johnson", "Williams", "Brown", "Jones", "Davis", "Miller"]

/-- Job-title pool (PayRegister.py lines 41-42). -/
def jobTitles : List String :=
  ["Manager", "Clerk", "Engineer", "Analyst", "Technician",
   "Salesperson", "Administrator", "Supervisor"]

/-- Pay-period pool (PayRegister.py lines 45-46). -/
def payPeriods : List String :=
  ["01/01-01/15", "01/16-01/31", "02/01-02/15",
   "02/16-02/28", "03/01-03/15", "03/16-03/31"]

/-- Round-half-to-even to the nearest integer (NumPy's rounding rule),
on exact rationals. -/
def roundHE (x : ℚ) : ℤ :=
  let f := ⌊x⌋
  let r := x - (f : ℚ)
  if r < 1 / 2 then f
  else if 1 / 2 < r then f + 1
  else if f % 2 = 0 then f else f + 1

/-- `np.round(x, 2)`: round to 2 decimal places, half to even. -/
def rnd2 (x : ℚ) : ℚ :=
  (roundHE (100 * x) : ℚ) / 100

/-- One row of the payroll DataFrame (the 15 columns built at
PayRegister.py lines 78-94). -/
structure Row where
  employeeName : String
  employeeId : String
  jobTitle : String
  payPeriod : String
  regularHours : ℤ
  overtimeHours : ℤ
  grossWages : ℚ
  federalTax : ℚ
  stateTax : ℚ
  socialSecurity : ℚ
  medicare : ℚ
  healthInsurance : ℚ
  retirement : ℚ
  otherDeductions : ℚ
  netPay : ℚ
deriving DecidableEq

/-- The random draws consumed for one row of the CPU generator. -/
structure RowDraws where
  firstName : String
  lastName : String
  jobTitle : String
  payPeriod : String
  regularHours : ℤ
  overtimeHours : ℤ
  baseRate : ℚ
  federalRate : ℚ
  stateRate : ℚ
  healthInsurance : ℚ
  retirement : ℚ
  otherDeductions : ℚ
deriving DecidableEq

/-- Unrounded gross wages (PayRegister.py line 55):
`regular_hours * base_rates + overtime_hours * (1.5 * base_rates)`. -/
def grossRaw (d : RowDraws) : ℚ :=
  (d.regularHours : ℚ) * d.baseRate + (d.overtimeHours : ℚ) * (3 / 2 * d.baseRate)

/-- Build one row from its draws: the arithmetic of PayRegister.py
lines 54-94, with `np.round(·, 2)` applied when storing the monetary
columns. -/
def mkRow (w : Nat) (i : Nat) (d : RowDraws) : Row :=
  let gross := grossRaw d
  let federalTax := gross * d.federalRate
  let stateTax := gross * d.stateRate
  let socialSecurity := gross * (62 / 1000)
  let medicare := gross * (145 / 10000)
  let totalDeductions := federalTax + stateTax + socialSecurity + medicare +
    d.healthInsurance + d.retirement + d.otherDeductions
  let netPay := gross - totalDeductions
  { employeeName := d.firstName ++ " " ++ d.lastName
    employeeId := padLeft w (decRepr i)
    jobTitle := d.jobTitle
    payPeriod := d.payPeriod
    regularHours := d.regularHours
    overtimeHours := d.overtimeHours
    grossWages := rnd2 gross
    federalTax := rnd2 federalTax
    stateTax := rnd2 stateTax
    socialSecurity := rnd2 socialSecurity
    medicare := rnd2 medicare
    healthInsurance := rnd2 d.healthInsurance
    retirement := rnd2 d.retirement
    otherDeductions := rnd2 d.otherDeductions
    netPay := rnd2 netPay }

/-- Abstract model of the NumPy global random machinery: `bits seed pos` is
the raw stream output at a position after seeding, and the three
transformations turn a raw output into a choice index, a `randint` value and
a `uniform` value. -/
structure Dists where
  bits : Nat → Nat → Nat
  choiceIx : Nat → Nat → Nat
  randintV : Nat → ℤ → ℤ → ℤ
  uniformV : Nat → ℚ → ℚ → ℚ

/-- The documented supports of the NumPy distributions:
`choice` indexes into the list, `randint(lo, hi)` draws in `[lo, hi)`,
`uniform(lo, hi)` draws in `[lo, hi)`. -/
def Dists.Valid (D : Dists) : Prop :=
  (∀ r n, 0 < n → D.choiceIx r n < n) ∧
  (∀ r lo hi, lo < hi → lo ≤ D.randintV r lo hi ∧ D.randintV r lo hi < hi) ∧
  (∀ r lo hi, lo < hi → lo ≤ D.uniformV r lo hi ∧ D.uniformV r lo hi < hi)

/-- `np.random.seed(s)`: replaces the global RNG state, discarding the
previous state `_g` (PayRegister.py line 27). -/
def np_random_seed (s : Nat) (_g : Nat) : Nat :=
  s

/-- The draws for row `k` (0-based) of an `N`-row CPU run: each column draw
in the source consumes `N` consecutive stream positions, in the source's
call order (firsts, lasts, job titles, pay periods, regular hours, overtime
hours, base rates, federal rates, state rates, health insurance, retirement,
other deductions). -/
def drawsAt (D : Dists) (seed : Nat) (N : Nat) (k : Nat) : RowDraws :=
  { firstName := firstNames.getD (D.choiceIx (D.bits seed k) firstNames.length) ""
    lastName := lastNames.getD (D.choiceIx (D.bits seed (N + k)) lastNames.length) ""
    jobTitle := jobTitles.getD (D.choiceIx (D.bits seed (2 * N + k)) jobTitles.length) ""
    payPeriod := payPeriods.getD (D.choiceIx (D.bits seed (3 * N + k)) payPeriods.length) ""
    regularHours := D.randintV (D.bits seed (4 * N + k)) 70 81
    overtimeHours := D.randintV (D.bits seed (5 * N + k)) 0 11
    baseRate := D.uniformV (D.bits seed (6 * N + k)) 15 50
    federalRate := D.uniformV (D.bits seed (7 * N + k)) (10 / 100) (15 / 100)
    stateRate := D.uniformV (D.bits seed (8 * N + k)) (3 / 100) (6 / 100)
    healthInsurance := D.uniformV (D.bits seed (9 * N + k)) 50 100
    retirement := D.uniformV (D.bits seed (10 * N + k)) 30 70
    otherDeductions := D.uniformV (D.bits seed (11 * N + k)) 10 30 }

/-- `simulate_complex_payroll_data_cpu(n_rows)` (PayRegister.py lines 6-95):
seeds the global RNG with 42 (discarding the incoming state `g`), then
builds the `nRows`-row table; row `k` carries employee id `k+1` zero-padded
to `idWidth nRows`. -/
def simulate_complex_payroll_data_cpu (D : Dists) (g : Nat) (nRows : Nat) : List Row :=
  let seeded := np_random_seed 42 g
  (List.range nRows).map fun k => mkRow (idWidth nRows) (k + 1) (drawsAt D seeded nRows k)

/-- The per-row effect of `compute_net_pay_cpu` (PayRegister.py lines
189-197): overwrite `Net Pay` with `Gross Wages` minus the sum of the seven
stored deduction columns (no re-rounding). -/
def computeNetPayRow (r : Row) : Row :=
  { r with netPay := r.grossWages - (r.federalTax + r.stateTax +
      r.socialSecurity + r.medicare + r.healthInsurance + r.retirement +
      r.otherDeductions) }

/-- `compute_net_pay_cpu(df)` (PayRegister.py lines 189-197), applied
columnwise, i.e. to every row. -/
def compute_net_pay_cpu (df : List Row) : List Row :=
  df.map computeNetPayRow

/-- The `--device` command-line choice (PayRegister.py line 241). -/
inductive Device
  | cpu
  | gpu
  | both
deriving DecidableEq

/-- The speedup value printed in the summary: `cpu_time / gpu_time` when
`gpu_time > 0`, else `float('inf')` (PayRegister.py line 255). -/
inductive SpeedupVal
  | finite (q : ℚ)
  | inf
deriving DecidableEq

/-- The observable effects of one run of `main`: the CPU timing reported (if
that path ran), the GPU timing reported (if that path ran and succeeded),
whether the missing-cuDF error message was printed, and the summary speedup
(if the summary was printed). -/
structure RunOutput where
  cpuReported : Option ℚ
  gpuReported : Option ℚ
  gpuErrorMsg : Bool
  summary : Option SpeedupVal
deriving DecidableEq

/-- `compute_gpu(n_rows)` (PayRegister.py lines 209-230), abstracted over
whether the cuDF import succeeds and what the measured elapsed time is:
on ImportError it prints a message and returns `None`; otherwise it returns
the elapsed time. -/
def compute_gpu (gpuAvailable : Bool) (gpuElapsed : ℚ) : Option ℚ :=
  if gpuAvailable then some gpuElapsed else none

/-- `main()` (PayRegister.py lines 232-256), with elapsed wall-clock times
as parameters. Python local-variable binding is modelled explicitly:
`cpu_time` / `gpu_time` are `none` when never assigned, and evaluating an
unassigned name produces `Except.error` (a `NameError`). The summary
condition `args.device == 'both' and gpu_time is not None` short-circuits,
so `gpu_time` is only evaluated when the device is `both`. -/
def main (device : Device) (cpuElapsed : ℚ) (gpuAvailable : Bool)
    (gpuElapsed : ℚ) : Except String RunOutput :=
  let cpuTimeVar : Option ℚ :=
    if device = Device.cpu ∨ device = Device.both then some cpuElapsed else none
  let gpuTimeVar : Option (Option ℚ) :=
    if device = Device.gpu ∨ device = Device.both then
      some (compute_gpu gpuAvailable gpuElapsed)
    else none
  let gpuReported : Option ℚ :=
    match gpuTimeVar with
    | some (some t) => some t
    | _ => none
  let gpuErrorMsg : Bool :=
    decide ((device = Device.gpu ∨ device = Device.both) ∧ gpuAvailable = false)
  if device = Device.both then
    match gpuTimeVar with
    | none => Except.error "NameError: gpu_time"
    | some none =>
        Except.ok ⟨cpuTimeVar, gpuReported, gpuErrorMsg, none⟩
    | some (some gt) =>
        match cpuTimeVar with
        | none => Except.error "NameError: cpu_time"
        | some ct =>
            Except.ok ⟨cpuTimeVar, gpuReported, gpuErrorMsg,
              some (if 0 < gt then SpeedupVal.finite (ct / gt) else SpeedupVal.inf)⟩
  else
    Except.ok ⟨cpuTimeVar, gpuReported, gpuErrorMsg, none⟩

/-- A concrete distribution implementation in which every draw returns the
low end of its support. -/
def Dconst : Dists :=
  { bits := fun _ pos => pos
    choiceIx := fun _ _ => 0
    randintV := fun _ lo _ => lo
    uniformV := fun _ lo _ => lo }

/-- A concrete distribution implementation whose base-rate draw returns
162763/10850 (≈ 15.0012, inside [15, 50)) and whose every other draw
returns the low end of its support. It makes the raw gross wages land just
next to a 2-decimal rounding boundary of gross wages × 0.062. -/
def Dcex : Dists :=
  { bits := fun _ pos => pos
    choiceIx := fun _ _ => 0
    randintV := fun _ lo _ => lo
    uniformV := fun _ lo hi => if lo = 15 ∧ hi = 50 then 162763 / 10850 else lo }

/-- The single row of the 1-row table generated with `Dcex`. -/
def rowCex : Row :=
  mkRow (idWidth 1) 1 (drawsAt Dcex 42 1 0)

/-- The single row of the 1-row table generated with `Dconst`. -/
def rowConst1 : Row :=
  mkRow (idWidth 1) 1 (drawsAt Dconst 42 1 0)

/-- The second row of the 2-row table generated with `Dconst`. -/
def rowConst2 : Row :=
  mkRow (idWidth 2) 2 (drawsAt Dconst 42 2 1)

/-- A concrete row used to instantiate hypotheses at concrete inputs. -/
def rowW : Row :=
  { employeeName := "John Doe"
    employeeId := "001"
    jobTitle := "Manager"
    payPeriod := "01/01-01/15"
    regularHours := 70
    overtimeHours := 0
    grossWages := 1050
    federalTax := 105
    stateTax := 40
    socialSecurity := 65
    medicare := 15
    healthInsurance := 50
    retirement := 30
    otherDeductions := 10
    netPay := 0 }

theorem computeNetPayRow_idem (r : Row) :
    computeNetPayRow (computeNetPayRow r) = computeNetPayRow r := rfl

theorem computeNetPayRow_netPay_eq (r : Row) :
    (computeNetPayRow r).netPay = r.grossWages - (r.federalTax + r.stateTax +
      r.socialSecurity + r.medicare + r.healthInsurance + r.retirement +
      r.otherDeductions) := rfl

theorem decDigitsAux_eq (fuel : Nat) :
    ∀ n, n ≤ fuel → decDigitsAux fuel n = Nat.digits 10 n := by
  induction fuel with
  | zero =>
    intro n hn
    obtain rfl : n = 0 := Nat.le_zero.mp hn
    simp [decDigitsAux]
  | succ f ih =>
    intro n hn
    match n with
    | 0 => simp [decDigitsAux]
    | m + 1 =>
      rw [decDigitsAux, Nat.digits_def' (by norm_num : (1 : ℕ) < 10) (Nat.succ_pos m)]
      congr 1
      exact ih _ (by omega)

theorem decDigits_eq (n : Nat) : decDigits n = Nat.digits 10 n :=
  decDigitsAux_eq n n le_rfl

theorem charDigit_digitChar {d : Nat} (h : d < 10) :
    charDigit (digitChar d) = d := by
  interval_cases d <;> rfl

theorem ofDigits_replicate_zero (k : Nat) :
    Nat.ofDigits 10 (List.replicate k 0) = 0 := by
  induction k with
  | zero => rfl
  | succ m ih => simp [List.replicate_succ, Nat.ofDigits_cons, ih]

theorem parseNat_padLeft_decRepr (w n : Nat) :
    parseNat (padLeft w (decRepr n)) = n := by
  have hdata : (padLeft w (decRepr n)).data =
      List.replicate (w - (decRepr n).length) '0' ++
        ((decDigits n).map digitChar).reverse := rfl
  have hmap : ∀ d ∈ decDigits n, charDigit (digitChar d) = d := by
    intro d hd
    refine charDigit_digitChar ?_
    rw [decDigits_eq] at hd
    exact Nat.digits_lt_base (by norm_num) hd
  unfold parseNat
  rw [hdata, List.map_append, List.map_replicate, List.reverse_append,
    List.map_reverse, List.reverse_reverse]
  have h0 : charDigit '0' = 0 := rfl
  rw [h0, List.map_map]
  have hcomp : (decDigits n).map (charDigit ∘ digitChar) = decDigits n := by
    conv_rhs => rw [← List.map_id (decDigits n)]
    exact List.map_congr_left fun d hd => hmap d hd
  rw [hcomp, Nat.ofDigits_append, List.reverse_replicate, ofDigits_replicate_zero,
    decDigits_eq, Nat.ofDigits_digits]
  simp

theorem padLeft_decRepr_injective (w : Nat) :
    Function.Injective fun n => padLeft w (decRepr n) := by
  intro a b h
  have := congrArg parseNat h
  rwa [parseNat_padLeft_decRepr, parseNat_padLeft_decRepr] at this

theorem decRepr_length (n : Nat) : (decRepr n).length = (decDigits n).length := by
  simp [decRepr, String.length]

theorem padLeft_length {w : Nat} {s : String} (h : s.length ≤ w) :
    (padLeft w s).length = w := by
  have hs : s.length = s.data.length := rfl
  show (List.replicate (w - s.length) '0' ++ s.data).length = w
  rw [List.length_append, List.length_replicate]
  omega

theorem decDigits_length_mono {m n : Nat} (h : m ≤ n) :
    (decDigits m).length ≤ (decDigits n).length := by
  rw [decDigits_eq, decDigits_eq]
  exact Nat.le_digits_len_le 10 m n h

@[simp] theorem mkRow_employeeId (w i : Nat) (d : RowDraws) :
    (mkRow w i d).employeeId = padLeft w (decRepr i) := rfl

@[simp] theorem mkRow_regularHours (w i : Nat) (d : RowDraws) :
    (mkRow w i d).regularHours = d.regularHours := rfl

@[simp] theorem mkRow_overtimeHours (w i : Nat) (d : RowDraws) :
    (mkRow w i d).overtimeHours = d.overtimeHours := rfl

@[simp] theorem mkRow_grossWages (w i : Nat) (d : RowDraws) :
    (mkRow w i d).grossWages = rnd2 (grossRaw d) := rfl

@[simp] theorem mkRow_federalTax (w i : Nat) (d : RowDraws) :
    (mkRow w i d).federalTax = rnd2 (grossRaw d * d.federalRate) := rfl

@[simp] theorem mkRow_stateTax (w i : Nat) (d : RowDraws) :
    (mkRow w i d).stateTax = rnd2 (grossRaw d * d.stateRate) := rfl

@[simp] theorem mkRow_socialSecurity (w i : Nat) (d : RowDraws) :
    (mkRow w i d).socialSecurity = rnd2 (grossRaw d * (62 / 1000)) := rfl

@[simp] theorem mkRow_medicare (w i : Nat) (d : RowDraws) :
    (mkRow w i d).medicare = rnd2 (grossRaw d * (145 / 10000)) := rfl

@[simp] theorem mkRow_healthInsurance (w i : Nat) (d : RowDraws) :
    (mkRow w i d).healthInsurance = rnd2 d.healthInsurance := rfl

@[simp] theorem mkRow_retirement (w i : Nat) (d : RowDraws) :
    (mkRow w i d).retirement = rnd2 d.retirement := rfl

@[simp] theorem mkRow_otherDeductions (w i : Nat) (d : RowDraws) :
    (mkRow w i d).otherDeductions = rnd2 d.otherDeductions := rfl

@[simp] theorem mkRow_netPay (w i : Nat) (d : RowDraws) :
    (mkRow w i d).netPay = rnd2 (grossRaw d -
      (grossRaw d * d.federalRate + grossRaw d * d.stateRate +
       grossRaw d * (62 / 1000) + grossRaw d * (145 / 10000) +
       d.healthInsurance + d.retirement + d.otherDeductions)) := rfl

/-- C1: after `compute_net_pay_cpu`, every row's Net Pay equals its Gross
Wages minus the sum of its seven stored deduction fields — the equality is
exact (hence in particular holds to 2-decimal precision). -/
theorem net_pay_recompute_exact (df : List Row) (r : Row)
    (hr : r ∈ compute_net_pay_cpu df) :
    r.netPay = r.grossWages - (r.federalTax + r.stateTax + r.socialSecurity +
      r.medicare + r.healthInsurance + r.retirement + r.otherDeductions) := by
  rcases List.mem_map.mp hr with ⟨s, _, rfl⟩
  rfl

/-- C1 witness: the recomputation equality at a concrete one-row table. -/
theorem net_pay_recompute_exact_witness :
    computeNetPayRow rowW ∈ compute_net_pay_cpu [rowW] ∧
    (computeNetPayRow rowW).netPay = (computeNetPayRow rowW).grossWages -
      ((computeNetPayRow rowW).federalTax + (computeNetPayRow rowW).stateTax +
       (computeNetPayRow rowW).socialSecurity + (computeNetPayRow rowW).medicare +
       (computeNetPayRow rowW).healthInsurance + (computeNetPayRow rowW).retirement +
       (computeNetPayRow rowW).otherDeductions) :=
  ⟨List.mem_singleton.mpr rfl,
   net_pay_recompute_exact [rowW] (computeNetPayRow rowW) (List.mem_singleton.mpr rfl)⟩

/-- C5: the net-pay recomputation is idempotent — applying
`compute_net_pay_cpu` twice to any table yields the same table (hence the
same Net Pay values) as applying it once, since the deduction fields are
not modified by the recomputation. -/
theorem compute_net_pay_cpu_idempotent (df : List Row) :
    compute_net_pay_cpu (compute_net_pay_cpu df) = compute_net_pay_cpu df := by
  simp only [compute_net_pay_cpu, List.map_map]
  exact List.map_congr_left fun r _ => computeNetPayRow_idem r

/-- C9: the CPU-path generator is deterministic — because
`np.random.seed(42)` replaces the global RNG state, the generated table does
not depend on the incoming RNG state, so for any fixed row count two runs
(with arbitrary prior states `g1`, `g2`) produce identical tables in every
field, given any fixed reference implementation `D` of the distributions. -/
theorem cpu_generator_deterministic (D : Dists) (g1 g2 : Nat) (N : Nat) :
    simulate_complex_payroll_data_cpu D g1 N =
      simulate_complex_payroll_data_cpu D g2 N := rfl

/-- C3: with device `both` and the GPU library unavailable, `main` completes
normally (no exception): the CPU timing is reported, the GPU path reports
only the unavailability message and an empty result, and no speedup summary
is produced. -/
theorem gpu_unavailable_both_behavior (cpuElapsed gpuElapsed : ℚ) :
    main Device.both cpuElapsed false gpuElapsed =
      Except.ok ⟨some cpuElapsed, none, true, none⟩ := rfl

/-- C4 counterexample: at device `both` with the GPU backend unavailable
(concrete elapsed times 1 and 2), `main` does not fail with an unresolved
reference — it returns normally with the summary skipped, because
`compute_gpu` returned `None` and `gpu_time` was therefore assigned. -/
theorem summary_unresolved_reference_cex :
    (main Device.both 1 false 2).isOk = true ∧
    main Device.both 1 false 2 = Except.ok ⟨some 1, none, true, none⟩ :=
  ⟨rfl, rfl⟩

/-- C4 amended: when device is `both` and the accelerated backend is
unavailable, `gpu_time` is assigned `None` by `compute_gpu`, the summary
guard `gpu_time is not None` evaluates to false, and the summary section is
skipped without any unresolved-reference error. -/
theorem summary_guard_skips_when_gpu_unavailable (ct ge : ℚ) :
    ∃ o : RunOutput, main Device.both ct false ge = Except.ok o ∧
      o.summary = none :=
  ⟨⟨some ct, none, true, none⟩, rfl, rfl⟩

theorem mem_simulate_cpu {D : Dists} {g N : Nat} {r : Row}
    (hr : r ∈ simulate_complex_payroll_data_cpu D g N) :
    ∃ k, k < N ∧ r = mkRow (idWidth N) (k + 1) (drawsAt D 42 N k) := by
  simp only [simulate_complex_payroll_data_cpu, np_random_seed, List.mem_map,
    List.mem_range] at hr
  rcases hr with ⟨k, hk, rfl⟩
  exact ⟨k, hk, rfl⟩

theorem roundHE_bounds (x : ℚ) :
    x - 1 / 2 ≤ (roundHE x : ℚ) ∧ (roundHE x : ℚ) ≤ x + 1 / 2 := by
  have h1 : (⌊x⌋ : ℚ) ≤ x := Int.floor_le x
  have h2 : x < (⌊x⌋ : ℚ) + 1 := Int.lt_floor_add_one x
  simp only [roundHE]
  split_ifs with ha hb hc <;> constructor <;> push_cast <;> linarith

theorem rnd2_ge (x : ℚ) : x - 1 / 200 ≤ rnd2 x := by
  have h := (roundHE_bounds (100 * x)).1
  simp only [rnd2]
  linarith

theorem rnd2_le (x : ℚ) : rnd2 x ≤ x + 1 / 200 := by
  have h := (roundHE_bounds (100 * x)).2
  simp only [rnd2]
  linarith

theorem mkRow_netPay_pos (w i : Nat) (d : RowDraws)
    (hrh : (70 : ℤ) ≤ d.regularHours)
    (hot : (0 : ℤ) ≤ d.overtimeHours)
    (hbr : (15 : ℚ) ≤ d.baseRate)
    (hfr2 : d.federalRate < 15 / 100)
    (hsr2 : d.stateRate < 6 / 100)
    (hhi2 : d.healthInsurance < 100)
    (hre2 : d.retirement < 70)
    (hod2 : d.otherDeductions < 30) :
    0 < (mkRow w i d).netPay ∧ 0 < (computeNetPayRow (mkRow w i d)).netPay := by
  have hrhq : (70 : ℚ) ≤ (d.regularHours : ℚ) := by exact_mod_cast hrh
  have hotq : (0 : ℚ) ≤ (d.overtimeHours : ℚ) := by exact_mod_cast hot
  have hgross : (1050 : ℚ) ≤ grossRaw d := by
    have hprod : (70 : ℚ) * 15 ≤ (d.regularHours : ℚ) * d.baseRate :=
      mul_le_mul hrhq hbr (by norm_num) (by linarith)
    have hot2 : 0 ≤ (d.overtimeHours : ℚ) * (3 / 2 * d.baseRate) :=
      mul_nonneg hotq (by linarith)
    unfold grossRaw
    linarith
  have hgpos : (0 : ℚ) < grossRaw d := by linarith
  have e1 : grossRaw d * d.federalRate ≤ grossRaw d * (15 / 100) :=
    mul_le_mul_of_nonneg_left (le_of_lt hfr2) (le_of_lt hgpos)
  have e2 : grossRaw d * d.stateRate ≤ grossRaw d * (6 / 100) :=
    mul_le_mul_of_nonneg_left (le_of_lt hsr2) (le_of_lt hgpos)
  constructor
  · have hb := rnd2_ge (grossRaw d -
      (grossRaw d * d.federalRate + grossRaw d * d.stateRate +
       grossRaw d * (62 / 1000) + grossRaw d * (145 / 10000) +
       d.healthInsurance + d.retirement + d.otherDeductions))
    rw [mkRow_netPay]
    linarith
  · rw [computeNetPayRow_netPay_eq, mkRow_grossWages, mkRow_federalTax,
      mkRow_stateTax, mkRow_socialSecurity, mkRow_medicare,
      mkRow_healthInsurance, mkRow_retirement, mkRow_otherDeductions]
    have b0 := rnd2_ge (grossRaw d)
    have b1 := rnd2_le (grossRaw d * d.federalRate)
    have b2 := rnd2_le (grossRaw d * d.stateRate)
    have b3 := rnd2_le (grossRaw d * (62 / 1000))
    have b4 := rnd2_le (grossRaw d * (145 / 10000))
    have b5 := rnd2_le d.healthInsurance
    have b6 := rnd2_le d.retirement
    have b7 := rnd2_le d.otherDeductions
    linarith

theorem Dconst_valid : Dconst.Valid :=
  ⟨fun _ _ h => h, fun _ _ _ h => ⟨le_refl _, h⟩, fun _ _ _ h => ⟨le_refl _, h⟩⟩

theorem Dcex_valid : Dcex.Valid := by
  refine ⟨fun _ _ h => h, fun _ _ _ h => ⟨le_refl _, h⟩, ?_⟩
  intro r lo hi h
  simp only [Dcex]
  split_ifs with hc
  · rcases hc with ⟨h1, h2⟩
    subst h1; subst h2
    norm_num
  · exact ⟨le_refl _, h⟩

/-- C2 counterexample: a validly generated 1-row table in which the stored
Social Security field (65.11, rounded from the unrounded gross wages
1050.08387… × 0.062 = 65.1052) differs from round(stored Gross Wages ×
0.062, 2) = round(1050.08 × 0.062, 2) = 65.10. -/
theorem social_security_from_stored_gross_cex :
    Dcex.Valid ∧
    rowCex ∈ simulate_complex_payroll_data_cpu Dcex 0 1 ∧
    rowCex.socialSecurity ≠ rnd2 (rowCex.grossWages * (62 / 1000)) := by
  refine ⟨Dcex_valid, List.mem_singleton.mpr rfl, ?_⟩
  have hg : grossRaw (drawsAt Dcex 42 1 0) = 162763 / 155 := by
    norm_num [grossRaw, drawsAt, Dcex]
  simp only [rowCex, mkRow_socialSecurity, mkRow_grossWages, hg]
  norm_num [rnd2, roundHE]

/-- C2 amended: the stored Social Security and Medicare fields are
`round(g × 0.062, 2)` and `round(g × 0.0145, 2)` where `g` is the
*unrounded* gross wages (regular hours × rate + overtime hours × 1.5 ×
rate), of which the stored Gross Wages field is itself the rounding. -/
theorem social_security_medicare_from_raw_gross (w i : Nat) (d : RowDraws) :
    (mkRow w i d).grossWages = rnd2 (grossRaw d) ∧
    (mkRow w i d).socialSecurity = rnd2 (grossRaw d * (62 / 1000)) ∧
    (mkRow w i d).medicare = rnd2 (grossRaw d * (145 / 10000)) :=
  ⟨rfl, rfl, rfl⟩

/-- C8: if both backends ran (device `both`, GPU available), the printed
speedup is the CPU elapsed time divided by the GPU elapsed time, and
infinity when the GPU elapsed time is not positive. -/
theorem speedup_ratio (ct gt : ℚ) :
    main Device.both ct true gt =
      Except.ok ⟨some ct, some gt, false,
        some (if 0 < gt then SpeedupVal.finite (ct / gt) else SpeedupVal.inf)⟩ :=
  rfl

/-- C6: for `N ≥ 1` the generated table has `N` Employee ID strings, the
`k`-th (0-based) being the decimal representation of `k+1` zero-padded on
the left to width `max(3, digits(N))`; they all have exactly that width and
are pairwise distinct. -/
theorem employee_ids_unique_padded (D : Dists) (g N : Nat) (hN : 1 ≤ N) :
    ((simulate_complex_payroll_data_cpu D g N).map Row.employeeId).length = N ∧
    (∀ k, k < N →
      ((simulate_complex_payroll_data_cpu D g N).map Row.employeeId)[k]? =
        some (padLeft (idWidth N) (decRepr (k + 1)))) ∧
    ((simulate_complex_payroll_data_cpu D g N).map Row.employeeId).Nodup ∧
    (∀ s ∈ (simulate_complex_payroll_data_cpu D g N).map Row.employeeId,
      s.length = idWidth N) := by
  have hids : (simulate_complex_payroll_data_cpu D g N).map Row.employeeId =
      (List.range N).map fun k => padLeft (idWidth N) (decRepr (k + 1)) := by
    simp only [simulate_complex_payroll_data_cpu, np_random_seed, List.map_map]
    exact List.map_congr_left fun k _ => rfl
  rw [hids]
  refine ⟨by simp, ?_, ?_, ?_⟩
  · intro k hk
    rw [List.getElem?_map, List.getElem?_range hk]
    rfl
  · refine List.Nodup.map ?_ (List.nodup_range N)
    intro a b h
    have hab := padLeft_decRepr_injective (idWidth N) h
    omega
  · intro s hs
    rcases List.mem_map.mp hs with ⟨k, hk, rfl⟩
    rw [List.mem_range] at hk
    refine padLeft_length ?_
    rw [decRepr_length]
    calc (decDigits (k + 1)).length ≤ (decDigits N).length :=
          decDigits_length_mono (by omega)
      _ ≤ idWidth N := le_max_right _ _

/-- C6 witness: the Employee ID properties at the concrete table with
`N = 5` (ids 001..005, width 3, pairwise distinct). -/
theorem employee_ids_unique_padded_witness :
    1 ≤ 5 ∧
    (((simulate_complex_payroll_data_cpu Dconst 0 5).map Row.employeeId).length = 5 ∧
     (∀ k, k < 5 →
       ((simulate_complex_payroll_data_cpu Dconst 0 5).map Row.employeeId)[k]? =
         some (padLeft (idWidth 5) (decRepr (k + 1)))) ∧
     ((simulate_complex_payroll_data_cpu Dconst 0 5).map Row.employeeId).Nodup ∧
     (∀ s ∈ (simulate_complex_payroll_data_cpu Dconst 0 5).map Row.employeeId,
       s.length = idWidth 5)) :=
  ⟨by norm_num, employee_ids_unique_padded Dconst 0 5 (by norm_num)⟩

/-- C7: every generated row has Regular Hours an integer in [70, 80] and
Overtime Hours an integer in [0, 10] (the supports of `randint(70, 81)` and
`randint(0, 11)`). -/
theorem hours_ranges (D : Dists) (hD : D.Valid) (g N : Nat) (r : Row)
    (hr : r ∈ simulate_complex_payroll_data_cpu D g N) :
    70 ≤ r.regularHours ∧ r.regularHours ≤ 80 ∧
      0 ≤ r.overtimeHours ∧ r.overtimeHours ≤ 10 := by
  obtain ⟨k, hk, rfl⟩ := mem_simulate_cpu hr
  have h1 := hD.2.1 (D.bits 42 (4 * N + k)) 70 81 (by norm_num)
  have h2 := hD.2.1 (D.bits 42 (5 * N + k)) 0 11 (by norm_num)
  simp only [mkRow_regularHours, mkRow_overtimeHours, drawsAt]
  omega

/-- C7 witness: the hour ranges at a concrete generated row. -/
theorem hours_ranges_witness :
    Dconst.Valid ∧ rowConst1 ∈ simulate_complex_payroll_data_cpu Dconst 0 1 ∧
      (70 ≤ rowConst1.regularHours ∧ rowConst1.regularHours ≤ 80 ∧
       0 ≤ rowConst1.overtimeHours ∧ rowConst1.overtimeHours ≤ 10) :=
  ⟨Dconst_valid, List.mem_singleton.mpr rfl,
   hours_ranges Dconst Dconst_valid 0 1 rowConst1 (List.mem_singleton.mpr rfl)⟩

/-- C10: every generated row has strictly positive Net Pay, both as stored
by the generator and after the recomputation from the rounded deduction
fields: gross wages ≥ 70 × 15 = 1050, the percentage deductions take at
most 28.65% of gross, and the fixed-range deductions at most 200, so raw
net pay ≥ 0.7135 × 1050 − 200 = 549.175, which the 2-decimal roundings can
lower by at most 0.04. -/
theorem net_pay_positive (D : Dists) (hD : D.Valid) (g N : Nat) (r : Row)
    (hr : r ∈ simulate_complex_payroll_data_cpu D g N) :
    0 < r.netPay ∧ 0 < (computeNetPayRow r).netPay := by
  obtain ⟨k, hk, rfl⟩ := mem_simulate_cpu hr
  obtain ⟨hch, hri, hun⟩ := hD
  exact mkRow_netPay_pos (idWidth N) (k + 1) (drawsAt D 42 N k)
    (hri (D.bits 42 (4 * N + k)) 70 81 (by norm_num)).1
    (hri (D.bits 42 (5 * N + k)) 0 11 (by norm_num)).1
    (hun (D.bits 42 (6 * N + k)) 15 50 (by norm_num)).1
    (hun (D.bits 42 (7 * N + k)) (10 / 100) (15 / 100) (by norm_num)).2
    (hun (D.bits 42 (8 * N + k)) (3 / 100) (6 / 100) (by norm_num)).2
    (hun (D.bits 42 (9 * N + k)) 50 100 (by norm_num)).2
    (hun (D.bits 42 (10 * N + k)) 30 70 (by norm_num)).2
    (hun (D.bits 42 (11 * N + k)) 10 30 (by norm_num)).2

/-- C10 witness: positive net pay at a concrete generated row. -/
theorem net_pay_positive_witness :
    Dconst.Valid ∧ rowConst2 ∈ simulate_complex_payroll_data_cpu Dconst 0 2 ∧
      (0 < rowConst2.netPay ∧ 0 < (computeNetPayRow rowConst2).netPay) :=
  ⟨Dconst_valid, List.mem_cons_of_mem _ (List.mem_singleton.mpr rfl),
   net_pay_positive Dconst Dconst_valid 0 2 rowConst2
     (List.mem_cons_of_mem _ (List.mem_singleton.mpr rfl))⟩

end PayRegister
